import Mathlib

/-!
Formal model of the elicit PDF text-extraction core
(src/services/pdf_processor.rs, src/services/ocr_service.rs,
src/models/request.rs, src/models/response.rs).

Bytes are modelled as natural numbers (every real byte is below 256);
Rust strings are modelled as Lean strings, with str::len modelled as the
UTF-8 byte size.  External effects (the pdf-extract library call, the
Tesseract presence probe, the pdfimages/tesseract OCR run, lopdf parsing)
are modelled as an environment record holding the outcome each external
collaborator would deliver for the processed file.
-/

namespace Elicit

set_option maxRecDepth 40000

/-- Left-to-right scan counting non-overlapping occurrences: skip counts
the positions still covered by the previous match. -/
def countOccsAux (pat : List Char) : Nat → List Char → Nat
  | _, [] => 0
  | skip + 1, _ :: rest => countOccsAux pat skip rest
  | 0, c :: rest =>
    if pat ≠ [] ∧ pat.isPrefixOf (c :: rest) then
      countOccsAux pat (pat.length - 1) rest + 1
    else
      countOccsAux pat 0 rest

/-- Number of non-overlapping occurrences of pat in s, scanning left to
right — model of Rust str::matches(pat).count(). -/
def countOccs (pat s : List Char) : Nat := countOccsAux pat 0 s

/-- Substring test — model of Rust str::contains(pat). -/
def containsSub (pat : List Char) : List Char → Bool
  | [] => pat.isPrefixOf []
  | c :: rest => pat.isPrefixOf (c :: rest) || containsSub pat rest

/-- Model of Rust char::from_u32: some character exactly at valid Unicode
scalar values. -/
def from_u32 (u : Nat) : Option Char :=
  if Nat.isValidChar u then some (Char.ofNat u) else none

/-- Model of decode_utf16_be (pdf_processor.rs lines 286-304): consume the
bytes two at a time as big-endian 16-bit units, skipping units that are
null or not valid scalar values; a trailing odd byte is never consumed. -/
def decode_utf16_be : List Nat → List Char
  | b0 :: b1 :: rest =>
    let u := b0 * 256 + b1
    (match from_u32 u with
     | some c => if c = Char.ofNat 0 then decode_utf16_be rest else c :: decode_utf16_be rest
     | none => decode_utf16_be rest)
  | _ => []

/-- Model of decode_utf16_le (pdf_processor.rs lines 306-324): identical to
the big-endian decoder with the two bytes of each unit swapped. -/
def decode_utf16_le : List Nat → List Char
  | b0 :: b1 :: rest =>
    let u := b1 * 256 + b0
    (match from_u32 u with
     | some c => if c = Char.ofNat 0 then decode_utf16_le rest else c :: decode_utf16_le rest
     | none => decode_utf16_le rest)
  | _ => []

/-- Model of looks_like_utf16 (pdf_processor.rs lines 275-284). -/
def looks_like_utf16 (bytes : List Nat) : Bool :=
  if bytes.length < 2 then
    false
  else
    decide (bytes.length / 3 < (bytes.filter (fun b => b = 0)).length)

/-- Replacement character U+FFFD emitted by lossy UTF-8 decoding. -/
def replChar : Char := Char.ofNat 0xFFFD

/-- Valid UTF-8 continuation byte. -/
def isCont (b : Nat) : Prop := 0x80 ≤ b ∧ b ≤ 0xBF

instance (b : Nat) : Decidable (isCont b) := by unfold isCont; infer_instance

/-- First continuation byte constraint for a three-byte lead (E0 needs
A0..BF, ED needs 80..9F, the rest 80..BF). -/
def cont3ok (b b1 : Nat) : Prop :=
  0x80 ≤ b1 ∧ b1 ≤ 0xBF ∧ (b = 0xE0 → 0xA0 ≤ b1) ∧ (b = 0xED → b1 ≤ 0x9F)

instance (b b1 : Nat) : Decidable (cont3ok b b1) := by unfold cont3ok; infer_instance

/-- First continuation byte constraint for a four-byte lead (F0 needs
90..BF, F4 needs 80..8F, the rest 80..BF). -/
def cont4ok (b b1 : Nat) : Prop :=
  0x80 ≤ b1 ∧ b1 ≤ 0xBF ∧ (b = 0xF0 → 0x90 ≤ b1) ∧ (b = 0xF4 → b1 ≤ 0x8F)

instance (b b1 : Nat) : Decidable (cont4ok b b1) := by unfold cont4ok; infer_instance

/-- Model of Rust String::from_utf8_lossy: decode well-formed sequences,
emit U+FFFD for each maximal invalid subpart and resume after it. -/
def utf8DecodeLossy : List Nat → List Char
  | [] => []
  | b :: bs =>
    match bs with
    | [] =>
      if b < 0x80 then [Char.ofNat b] else [replChar]
    | b1 :: bs1 =>
      if b < 0x80 then
        Char.ofNat b :: utf8DecodeLossy (b1 :: bs1)
      else if b < 0xC2 then
        replChar :: utf8DecodeLossy (b1 :: bs1)
      else if b < 0xE0 then
        (if isCont b1 then
          Char.ofNat ((b - 0xC0) * 64 + (b1 - 0x80)) :: utf8DecodeLossy bs1
        else
          replChar :: utf8DecodeLossy (b1 :: bs1))
      else if b < 0xF0 then
        (if cont3ok b b1 then
          match bs1 with
          | [] => [replChar]
          | b2 :: bs2 =>
            if isCont b2 then
              Char.ofNat ((b - 0xE0) * 4096 + (b1 - 0x80) * 64 + (b2 - 0x80)) ::
                utf8DecodeLossy bs2
            else
              replChar :: utf8DecodeLossy (b2 :: bs2)
        else
          replChar :: utf8DecodeLossy (b1 :: bs1))
      else if b < 0xF5 then
        (if cont4ok b b1 then
          match bs1 with
          | [] => [replChar]
          | b2 :: bs2 =>
            if isCont b2 then
              match bs2 with
              | [] => [replChar]
              | b3 :: bs3 =>
                if isCont b3 then
                  Char.ofNat ((b - 0xF0) * 0x40000 + (b1 - 0x80) * 4096 +
                      (b2 - 0x80) * 64 + (b3 - 0x80)) :: utf8DecodeLossy bs3
                else
                  replChar :: utf8DecodeLossy (b3 :: bs3)
            else
              replChar :: utf8DecodeLossy (b2 :: bs2)
        else
          replChar :: utf8DecodeLossy (b1 :: bs1))
      else
        replChar :: utf8DecodeLossy (b1 :: bs1)

/-- Known scanning-application signatures (ocr_service.rs lines 195-201). -/
def scan_indicators : List (List Char) :=
  ["CamScanner", "Adobe Scan", "TinyScanner", "Scanner Pro", "Genius Scan"].map String.data

/-- Image-related markers (ocr_service.rs lines 207-213). -/
def image_markers : List (List Char) :=
  ["/Image", "/DCTDecode", "/CCITTFaxDecode", "/JBIG2Decode", "/JPXDecode"].map String.data

/-- Text-related markers (ocr_service.rs lines 220-225). -/
def text_markers : List (List Char) :=
  ["/Font", "/Text", "BT", "ET"].map String.data

/-- Whether a known scanning-app signature occurs in the lossy UTF-8 view. -/
def hasScanApp (pdf_str : List Char) : Bool :=
  scan_indicators.any (fun indicator => containsSub indicator pdf_str)

/-- Total occurrence count of the image markers in the lossy UTF-8 view. -/
def imageMarkerCount (pdf_str : List Char) : Nat :=
  (image_markers.map (fun marker => countOccs marker pdf_str)).sum

/-- Total occurrence count of the text markers in the lossy UTF-8 view. -/
def textMarkerCount (pdf_str : List Char) : Nat :=
  (text_markers.map (fun marker => countOccs marker pdf_str)).sum

/-- Model of OcrService::is_likely_scanned_pdf (ocr_service.rs lines
190-242): heuristic scanned-content classifier over the raw bytes. -/
def is_likely_scanned_pdf (pdf_data : List Nat) : Bool :=
  let pdf_str := utf8DecodeLossy pdf_data
  let image_count := imageMarkerCount pdf_str
  let text_count := textMarkerCount pdf_str
  hasScanApp pdf_str ||
    decide (0 < image_count ∧ text_count = 0) ||
    decide (10 < image_count ∧ text_count ≤ image_count) ||
    decide (text_count * 2 < image_count)

/-- Model of Rust str::len on the UTF-8 representation of a string. -/
def rlen (s : String) : Nat := (s.data.map Char.utf8Size).sum

/-- Model of Rust str::trim: drop whitespace from both ends. -/
def rustTrim (s : String) : String :=
  ⟨((s.data.dropWhile Char.isWhitespace).reverse.dropWhile Char.isWhitespace).reverse⟩

/-- Model of ProcessedFile (models/request.rs lines 9-15). -/
structure ProcessedFile where
  name : String
  size : Nat
  content : List Nat
  mime_type : Option String

/-- Model of ProcessedFile::is_pdf (models/request.rs lines 33-41): when a
MIME type is declared only the MIME type is consulted; the filename
extension and the %PDF signature are checked only when it is absent. -/
def ProcessedFile.is_pdf (f : ProcessedFile) : Bool :=
  match f.mime_type with
  | some mt => mt = "application/pdf"
  | none =>
    (".pdf".data.isSuffixOf (f.name.data.map Char.toLower)) ||
      ("%PDF".data.map Char.toNat).isPrefixOf f.content

/-- Model of PdfMetadata (models/response.rs lines 18-25); the chrono date
fields are modelled as opaque numbers (they are never set on this path). -/
structure PdfMetadata where
  title : Option String
  author : Option String
  creation_date : Option Nat
  modification_date : Option Nat
  file_size_bytes : Nat
  ocr_used : Bool
  deriving DecidableEq, Repr

/-- Model of PdfMetadata::new. -/
def PdfMetadata.new (file_size_bytes : Nat) : PdfMetadata :=
  { title := none, author := none, creation_date := none,
    modification_date := none, file_size_bytes := file_size_bytes,
    ocr_used := false }

/-- Model of PdfMetadata::with_ocr. -/
def PdfMetadata.with_ocr (m : PdfMetadata) : PdfMetadata := { m with ocr_used := true }

/-- Model of PdfMetadata::with_title. -/
def PdfMetadata.with_title (m : PdfMetadata) (t : Option String) : PdfMetadata :=
  { m with title := t }

/-- Model of PdfMetadata.with_author. -/
def PdfMetadata.with_author (m : PdfMetadata) (a : Option String) : PdfMetadata :=
  { m with author := a }

/-- Model of the AppError variants reachable from the extraction core
(error/types.rs). -/
inductive AppError where
  | InvalidFile (message : String)
  | FileTooLarge (size limit : Nat)
  | ProcessingError (message : String)
  | OcrError (message : String)
  | ConfigError (message : String)
  deriving DecidableEq, Repr

deriving instance DecidableEq for Except

/-- Display strings of AppError (the thiserror derive in error/types.rs). -/
def AppError.display : AppError → String
  | .InvalidFile m => "Invalid file format: " ++ m
  | .FileTooLarge s l =>
    "File too large: " ++ toString s ++ "MB exceeds limit of " ++ toString l ++ "MB"
  | .ProcessingError m => "PDF processing failed: " ++ m
  | .OcrError m => "OCR processing failed: " ++ m
  | .ConfigError m => "Configuration error: " ++ m

/-- Model of ExtractionResult (pdf_processor.rs lines 13-19); wall-clock
time is not modelled, the processing_time_ms field is fixed at zero. -/
structure ExtractionResult where
  text : String
  pages : Nat
  metadata : PdfMetadata
  processing_time_ms : Nat
  deriving DecidableEq, Repr

/-- Outcomes of the external collaborators for one extraction call:
the pdf-extract library run, the Tesseract presence probe, the
pdfimages/tesseract OCR pipeline run, the lopdf structural parse, and the
host character classifier used by char::is_alphabetic. -/
structure Env where
  directResult : Except String String
  tesseractAvailable : Bool
  performOcrResult : Except String String
  loadMemPages : Option Nat
  titleRaw : Option (List Nat)
  authorRaw : Option (List Nat)
  isAlphabetic : Char → Bool
  configMaxSizeMb : Except String Nat

/-- Model of OcrService::new (ocr_service.rs lines 11-20). -/
def ocrNew (env : Env) : Except AppError Unit :=
  if env.tesseractAvailable then .ok ()
  else .error (.OcrError "Tesseract OCR not available on this system")

/-- Model of OcrService::extract_text_from_pdf (ocr_service.rs lines
22-63): classifier precondition, Tesseract precondition, then the OCR run
whose failure is absorbed into an empty-text success. -/
def extract_text_from_pdf (env : Env) (pdf_data : List Nat) : Except AppError String :=
  if is_likely_scanned_pdf pdf_data = false then
    .error (.OcrError "PDF does not appear to contain scanned content that requires OCR")
  else if env.tesseractAvailable = false then
    .error (.OcrError ("This PDF appears to be scanned and requires OCR, but Tesseract " ++
      "is not installed. Please install Tesseract OCR to process scanned PDFs."))
  else
    match env.performOcrResult with
    | .ok text => .ok text
    | .error _ => .ok ""

/-- Model of PdfProcessor::estimate_pages (pdf_processor.rs lines 190-199). -/
def estimate_pages (env : Env) (pdf_content : List Nat) : Nat :=
  match env.loadMemPages with
  | some n => n
  | none => max 1 (pdf_content.length / 1024 / 50)

/-- Shared raw-metadata string decoding of extract_title / extract_author
(pdf_processor.rs lines 209-221 and 245-257). -/
def decode_metadata (bytes : List Nat) : List Char :=
  if [0xFE, 0xFF].isPrefixOf bytes then decode_utf16_be (bytes.drop 2)
  else if [0xFF, 0xFE].isPrefixOf bytes then decode_utf16_le (bytes.drop 2)
  else if looks_like_utf16 bytes then decode_utf16_be bytes
  else utf8DecodeLossy bytes

/-- Model of PdfProcessor::extract_title (pdf_processor.rs lines 201-235);
the lopdf traversal that fetches the raw Title bytes is the environment. -/
def extract_title (env : Env) : Option String :=
  match env.titleRaw with
  | none => none
  | some bytes =>
    let title_string : String := ⟨decode_metadata bytes⟩
    let trimmed := rustTrim title_string
    if trimmed = "" then none else some trimmed

/-- Model of PdfProcessor::extract_author (pdf_processor.rs lines 237-271). -/
def extract_author (env : Env) : Option String :=
  match env.authorRaw with
  | none => none
  | some bytes =>
    let author_string : String := ⟨decode_metadata bytes⟩
    let trimmed := rustTrim author_string
    if trimmed = "" then none else some trimmed

/-- Lines 70-93 of pdf_processor.rs: the direct pdf-extract pass with the
OCR replacement attempted on a hard extractor failure. -/
def directPhase (env : Env) (content : List Nat) : Except AppError String :=
  match env.directResult with
  | .ok text => .ok text
  | .error e =>
    match ocrNew env with
    | .error err => .error err
    | .ok _ =>
      match extract_text_from_pdf env content with
      | .ok ocr_text => .ok ocr_text
      | .error ocr_err =>
        .error (.ProcessingError
          ("PDF extraction failed: " ++ e ++ ", OCR failed: " ++ ocr_err.display))

/-- Lines 96-188 of pdf_processor.rs: empty-text OCR path, weak-text OCR
enhancement path, and result assembly.  The second component records
whether the OCR service was consulted on the way. -/
def afterDirect (env : Env) (file : ProcessedFile) (extracted_text : String) :
    Except AppError ExtractionResult × Bool :=
  let cleaned_text := rustTrim extracted_text
  if cleaned_text = "" then
    (match ocrNew env with
     | .error err => (.error err, true)
     | .ok _ =>
       match extract_text_from_pdf env file.content with
       | .ok ocr_text =>
         (.ok { text := ocr_text, pages := estimate_pages env file.content,
                metadata := (PdfMetadata.new file.size).with_ocr,
                processing_time_ms := 0 }, true)
       | .error ocr_err =>
         let err_msg := ocr_err.display
         if containsSub "does not appear to contain scanned content".data err_msg.data then
           (.ok { text := "", pages := estimate_pages env file.content,
                  metadata := ((PdfMetadata.new file.size).with_title
                    (extract_title env)).with_author (extract_author env),
                  processing_time_ms := 0 }, true)
         else if containsSub "Tesseract is not installed".data err_msg.data then
           (.error (.ProcessingError
             ("This PDF appears to be scanned and requires OCR. " ++ err_msg)), true)
         else
           (.error (.ProcessingError ("No text found and OCR failed: " ++ err_msg)), true))
  else
    let use_ocr := rlen cleaned_text < 100 ∨
      (cleaned_text.data.filter env.isAlphabetic).length < 50
    if use_ocr then
      (match ocrNew env with
       | .error err => (.error err, true)
       | .ok _ =>
         let final_text :=
           match extract_text_from_pdf env file.content with
           | .ok ocr_text => if rlen cleaned_text < rlen ocr_text then ocr_text else cleaned_text
           | .error _ => cleaned_text
         (.ok { text := final_text, pages := estimate_pages env file.content,
                metadata := ((PdfMetadata.new file.size).with_title
                  (extract_title env)).with_author (extract_author env),
                processing_time_ms := 0 }, true))
    else
      (.ok { text := cleaned_text, pages := estimate_pages env file.content,
             metadata := ((PdfMetadata.new file.size).with_title
               (extract_title env)).with_author (extract_author env),
             processing_time_ms := 0 }, false)

/-- Model of PdfProcessor::extract_text (pdf_processor.rs lines 26-188).
The boolean component is true exactly when the OCR service was consulted
anywhere during the call. -/
def extract_text (env : Env) (file : ProcessedFile) :
    Except AppError ExtractionResult × Bool :=
  if file.is_pdf = false then
    (.error (.InvalidFile "File is not a valid PDF"), false)
  else
    match env.configMaxSizeMb with
    | .error e => (.error (.ConfigError ("Failed to load config: " ++ e)), false)
    | .ok max_file_size_mb =>
      if max_file_size_mb * 1024 * 1024 < file.content.length then
        (.error (.FileTooLarge (file.content.length / (1024 * 1024)) max_file_size_mb),
         false)
      else
        let dflag := match env.directResult with | .ok _ => false | .error _ => true
        match directPhase env file.content with
        | .error err => (.error err, dflag)
        | .ok extracted_text =>
          let r := afterDirect env file extracted_text
          (r.fst, dflag || r.snd)

/-! Concrete inputs used to exercise the model. -/

/-- The byte string of an ASCII text. -/
def asciiBytes (s : String) : List Nat := s.data.map Char.toNat

/-- A 120-letter text: long enough to be accepted as strong direct output. -/
def longLetters : String := String.mk (List.replicate 120 'a')

/-- A baseline environment: direct extraction returns empty text, Tesseract
is present, the OCR pipeline yields some text, lopdf parsing fails. -/
def envBase : Env :=
  { directResult := .ok "", tesseractAvailable := true,
    performOcrResult := .ok "hello", loadMemPages := none,
    titleRaw := none, authorRaw := none, isAlphabetic := Char.isAlpha,
    configMaxSizeMb := .ok 10 }

/-- A file whose bytes carry one image marker and no text markers, hence
classified as likely scanned. -/
def fileScan : ProcessedFile :=
  { name := "doc.pdf", size := 6, content := asciiBytes "/Image",
    mime_type := some "application/pdf" }

/-- A file whose bytes carry text markers and no image markers, hence
classified as not scanned. -/
def fileText : ProcessedFile :=
  { name := "doc.pdf", size := 16, content := asciiBytes "%PDF /Font BT ET",
    mime_type := some "application/pdf" }

/-- Environment whose direct extraction yields a strong 120-letter text. -/
def envStrong : Env := { envBase with directResult := .ok longLetters }

/-- Environment whose direct extraction fails hard while the OCR pipeline
yields a strong 120-letter text. -/
def envHardFail : Env :=
  { envBase with directResult := .error "pdf-extract hard failure",
                 performOcrResult := .ok longLetters }

/-- Environment on a system without Tesseract. -/
def envNoTess : Env := { envBase with tesseractAvailable := false }

/-- Environment where the OCR pipeline run itself fails after both
preconditions hold. -/
def envOcrRunFail : Env :=
  { envBase with performOcrResult := .error "No images could be extracted from the PDF" }

/-- Environment where lopdf parses the document to an empty page tree. -/
def envZeroPages : Env := { envStrong with loadMemPages := some 0 }

/-- File declaring a non-PDF MIME type while both the filename extension
and the content signature look like a PDF. -/
def fileMime : ProcessedFile :=
  { name := "doc.pdf", size := 8, content := asciiBytes "%PDF-1.4",
    mime_type := some "text/plain" }

/-! Reference encoders stated from the spec, used to express the
round-trip and unit-view claims about the decoders. -/

/-- UTF-16 code units of a character (surrogate pair above the BMP). -/
def utf16Units (c : Char) : List Nat :=
  if c.toNat < 0x10000 then [c.toNat]
  else
    [0xD800 + (c.toNat - 0x10000) / 0x400, 0xDC00 + (c.toNat - 0x10000) % 0x400]

/-- UTF-16BE encoding with byte-order mark. -/
def encode_utf16_be_bom (s : String) : List Nat :=
  [0xFE, 0xFF] ++ (s.data.flatMap utf16Units).flatMap (fun u => [u / 256, u % 256])

/-- UTF-16LE encoding with byte-order mark. -/
def encode_utf16_le_bom (s : String) : List Nat :=
  [0xFF, 0xFE] ++ (s.data.flatMap utf16Units).flatMap (fun u => [u % 256, u / 256])

/-- UTF-8 encoding of one character. -/
def utf8EncodeChar (c : Char) : List Nat :=
  let v := c.toNat
  if v < 0x80 then [v]
  else if v < 0x800 then [0xC0 + v / 64, 0x80 + v % 64]
  else if v < 0x10000 then
    [0xE0 + v / 4096, 0x80 + (v / 64) % 64, 0x80 + v % 64]
  else
    [0xF0 + v / 0x40000, 0x80 + (v / 4096) % 64, 0x80 + (v / 64) % 64, 0x80 + v % 64]

/-- UTF-8 encoding of a string. -/
def utf8Encode (s : String) : List Nat := s.data.flatMap utf8EncodeChar

/-- Big-endian 16-bit unit view of a byte string: consecutive two-byte
units, any trailing odd byte dropped. -/
def specUnitsBE : List Nat → List Nat
  | b0 :: b1 :: rest => (b0 * 256 + b1) :: specUnitsBE rest
  | _ => []

/-- Little-endian 16-bit unit view of a byte string. -/
def specUnitsLE : List Nat → List Nat
  | b0 :: b1 :: rest => (b1 * 256 + b0) :: specUnitsLE rest
  | _ => []

/-- Unit-wise decoding described by the claim: drop every unit that is
null or not a valid scalar value, keep the character otherwise. -/
def specUnitsDecode (us : List Nat) : List Char :=
  us.filterMap (fun u =>
    match from_u32 u with
    | some c => if c = Char.ofNat 0 then none else some c
    | none => none)

/-- A string holding a single null character. -/
def nullString : String := ⟨[Char.ofNat 0]⟩

/-- A string holding a single supplementary-plane character (U+10000). -/
def suppString : String := ⟨[Char.ofNat 0x10000]⟩

/-- A string where more than a third of the UTF-8 bytes are null. -/
def nullPadded : String := ⟨[Char.ofNat 97, Char.ofNat 0, Char.ofNat 0]⟩

/-! Helper lemmas. -/

/-- A string has at least as many UTF-8 bytes as characters. -/
lemma length_le_rlen (s : String) : s.length ≤ rlen s := by
  show s.data.length ≤ (s.data.map Char.utf8Size).sum
  induction s.data with
  | nil => simp
  | cons c cs ih =>
    have := Char.utf8Size_pos c
    simp only [List.length_cons, List.map_cons, List.sum_cons]
    omega

/-- The OCR service surfaces only its two precondition failures; every
failure of the OCR run itself is absorbed into an empty-text success. -/
lemma extract_text_from_pdf_error_cases (env : Env) (c : List Nat) (e : AppError)
    (h : extract_text_from_pdf env c = .error e) :
    e = .OcrError "PDF does not appear to contain scanned content that requires OCR" ∨
    e = .OcrError ("This PDF appears to be scanned and requires OCR, but Tesseract " ++
      "is not installed. Please install Tesseract OCR to process scanned PDFs.") := by
  unfold extract_text_from_pdf at h
  by_cases h1 : is_likely_scanned_pdf c = false
  · rw [if_pos h1] at h
    exact Or.inl (Except.error.inj h).symm
  · rw [if_neg h1] at h
    by_cases h2 : env.tesseractAvailable = false
    · rw [if_pos h2] at h
      exact Or.inr (Except.error.inj h).symm
    · rw [if_neg h2] at h
      cases hp : env.performOcrResult with
      | ok t => rw [hp] at h; exact absurd h (by simp)
      | error msg => rw [hp] at h; exact absurd h (by simp)

/-- C4: the scanned-content classifier returns likely-scanned exactly when
a scanning-app signature is present, or image markers appear with no text
markers, or more than ten image markers appear with at least as many image
as text markers, or image markers outnumber twice the text markers, all
counted over the lossy UTF-8 view of the bytes. -/
theorem C4_classifier_decision (pdf_data : List Nat) :
    is_likely_scanned_pdf pdf_data = true ↔
      (hasScanApp (utf8DecodeLossy pdf_data) = true ∨
       (0 < imageMarkerCount (utf8DecodeLossy pdf_data) ∧
         textMarkerCount (utf8DecodeLossy pdf_data) = 0) ∨
       (10 < imageMarkerCount (utf8DecodeLossy pdf_data) ∧
         textMarkerCount (utf8DecodeLossy pdf_data) ≤
           imageMarkerCount (utf8DecodeLossy pdf_data)) ∨
       2 * textMarkerCount (utf8DecodeLossy pdf_data) <
         imageMarkerCount (utf8DecodeLossy pdf_data)) := by
  unfold is_likely_scanned_pdf
  simp only [Bool.or_eq_true, decide_eq_true_eq, Nat.mul_comm]
  tauto

/-- C4 witness: a buffer holding a single image marker is classified as
likely scanned. -/
theorem C4_classifier_decision_witness :
    is_likely_scanned_pdf (asciiBytes "/Image") = true :=
  (C4_classifier_decision (asciiBytes "/Image")).mpr (by decide)

/-- C2: when direct extraction succeeds with at least 100 characters and
at least 50 alphabetic characters after trimming, the OCR service is never
consulted and the call returns the trimmed direct text with ocr_used
false. -/
theorem C2_strong_direct_no_ocr (env : Env) (file : ProcessedFile) (t : String)
    (limit : Nat)
    (hpdf : file.is_pdf = true)
    (hcfg : env.configMaxSizeMb = .ok limit)
    (hsize : file.content.length ≤ limit * 1024 * 1024)
    (hd : env.directResult = .ok t)
    (hlen : 100 ≤ (rustTrim t).length)
    (halpha : 50 ≤ ((rustTrim t).data.filter env.isAlphabetic).length) :
    extract_text env file =
      (.ok { text := (rustTrim t), pages := estimate_pages env file.content,
             metadata := ((PdfMetadata.new file.size).with_title
               (extract_title env)).with_author (extract_author env),
             processing_time_ms := 0 }, false) := by
  have hrlen : 100 ≤ rlen (rustTrim t) := le_trans hlen (length_le_rlen (rustTrim t))
  have htrim : ¬(rustTrim t) = "" := by
    intro h
    rw [h] at hlen
    simp [String.length] at hlen
  unfold extract_text directPhase afterDirect
  rw [hpdf, hcfg, hd]
  simp only [Bool.false_eq_true, if_false,
    if_neg (by omega : ¬limit * 1024 * 1024 < file.content.length)]
  rw [if_neg htrim,
    if_neg (by push_neg; exact ⟨by omega, by omega⟩ :
      ¬(rlen (rustTrim t) < 100 ∨ ((rustTrim t).data.filter env.isAlphabetic).length < 50))]
  simp


/-- C2 witness: the strong-direct-output scenario at a concrete input. -/
theorem C2_strong_direct_no_ocr_witness :
    extract_text envStrong fileText =
      (.ok { text := (rustTrim longLetters),
             pages := estimate_pages envStrong fileText.content,
             metadata := ((PdfMetadata.new fileText.size).with_title
               (extract_title envStrong)).with_author (extract_author envStrong),
             processing_time_ms := 0 }, false) :=
  C2_strong_direct_no_ocr envStrong fileText longLetters 10 (by decide) rfl
    (by decide) rfl (by decide) (by decide)

/-- The classifier-rejection message produced by the OCR service contains
the marker phrase the orchestrator tests for. -/
lemma contains_msg_not_scanned :
    containsSub "does not appear to contain scanned content".data
      ((AppError.OcrError
        "PDF does not appear to contain scanned content that requires OCR").display).data =
      true := by decide

/-- The Tesseract-missing message does not contain the classifier-rejection
marker phrase. -/
lemma not_contains_msg_not_scanned :
    containsSub "does not appear to contain scanned content".data
      ((AppError.OcrError ("This PDF appears to be scanned and requires OCR, but Tesseract " ++
        "is not installed. Please install Tesseract OCR to process scanned PDFs.")).display).data =
      false := by decide

/-- The Tesseract-missing message contains the marker phrase the
orchestrator tests for. -/
lemma contains_msg_tesseract :
    containsSub "Tesseract is not installed".data
      ((AppError.OcrError ("This PDF appears to be scanned and requires OCR, but Tesseract " ++
        "is not installed. Please install Tesseract OCR to process scanned PDFs.")).display).data =
      true := by decide

/-- C3 (amended): when direct extraction succeeds with empty trimmed text,
the classifier judges the document not scanned, and the OCR engine is
installed, the call returns successfully with empty text, ocr_used false,
and page count, title and author attached. -/
theorem C3_empty_not_scanned_ok (env : Env) (file : ProcessedFile) (t : String)
    (limit : Nat)
    (hpdf : file.is_pdf = true)
    (hcfg : env.configMaxSizeMb = .ok limit)
    (hsize : file.content.length ≤ limit * 1024 * 1024)
    (hd : env.directResult = .ok t)
    (htrim : (rustTrim t) = "")
    (hscan : is_likely_scanned_pdf file.content = false)
    (htess : env.tesseractAvailable = true) :
    extract_text env file =
      (.ok { text := "", pages := estimate_pages env file.content,
             metadata := ((PdfMetadata.new file.size).with_title
               (extract_title env)).with_author (extract_author env),
             processing_time_ms := 0 }, true) := by
  have hsz : ¬limit * 1024 * 1024 < file.content.length := by omega
  simp [extract_text, directPhase, afterDirect, extract_text_from_pdf, ocrNew,
    hpdf, hcfg, hd, hscan, htess, htrim, hsz, contains_msg_not_scanned]
  intro hc
  exact absurd hc (by decide)

/-- C3 counterexample: with the OCR engine absent, the very same
not-scanned empty-text situation makes the call fail with a raw OcrError
instead of returning the empty result the claim promises. -/
theorem C3_counterexample :
    envNoTess.directResult = .ok "" ∧
    is_likely_scanned_pdf fileText.content = false ∧
    extract_text envNoTess fileText =
      (.error (.OcrError "Tesseract OCR not available on this system"), true) :=
  ⟨rfl, by decide, by decide⟩

/-- C3 witness: the amended scenario at a concrete input. -/
theorem C3_empty_not_scanned_ok_witness :
    extract_text envBase fileText =
      (.ok { text := "", pages := estimate_pages envBase fileText.content,
             metadata := ((PdfMetadata.new fileText.size).with_title
               (extract_title envBase)).with_author (extract_author envBase),
             processing_time_ms := 0 }, true) :=
  C3_empty_not_scanned_ok envBase fileText "" 10 (by decide) rfl (by decide) rfl
    (by decide) (by decide) rfl

/-- C5: with Tesseract absent, the classifier flagging the document as
scanned, and direct extraction empty, the call fails — but with the raw
OcrError propagated from OcrService::new, not with the ProcessingError the
spec promises; the translating branch in the orchestrator is dead code. -/
theorem C5_no_tesseract_raw_ocr_error :
    is_likely_scanned_pdf fileScan.content = true ∧
    envNoTess.tesseractAvailable = false ∧
    envNoTess.directResult = .ok "" ∧
    extract_text envNoTess fileScan =
      (.error (.OcrError "Tesseract OCR not available on this system"), true) :=
  ⟨by decide, rfl, rfl, by decide⟩

/-- C6 counterexample: an OCR-run failure after both preconditions passed
(no images could be extracted) does not fail the call: the OCR service
absorbs it into empty text and the call succeeds with ocr_used true. -/
theorem C6_counterexample :
    is_likely_scanned_pdf fileScan.content = true ∧
    envOcrRunFail.tesseractAvailable = true ∧
    envOcrRunFail.performOcrResult = .error "No images could be extracted from the PDF" ∧
    envOcrRunFail.directResult = .ok "" ∧
    extract_text envOcrRunFail fileScan =
      (.ok { text := "", pages := 1,
             metadata := (PdfMetadata.new 6).with_ocr, processing_time_ms := 0 },
       true) :=
  ⟨by decide, rfl, rfl, rfl, by decide⟩

/-- C6 (amended): in the empty path with both OCR preconditions passed,
any failure of the OCR run itself is absorbed: the call succeeds with
empty text and ocr_used true instead of failing with ProcessingError. -/
theorem C6_ocr_run_failure_absorbed (env : Env) (file : ProcessedFile) (t : String)
    (limit : Nat) (msg : String)
    (hpdf : file.is_pdf = true)
    (hcfg : env.configMaxSizeMb = .ok limit)
    (hsize : file.content.length ≤ limit * 1024 * 1024)
    (hd : env.directResult = .ok t)
    (htrim : (rustTrim t) = "")
    (hscan : is_likely_scanned_pdf file.content = true)
    (htess : env.tesseractAvailable = true)
    (hocr : env.performOcrResult = .error msg) :
    extract_text env file =
      (.ok { text := "", pages := estimate_pages env file.content,
             metadata := (PdfMetadata.new file.size).with_ocr,
             processing_time_ms := 0 }, true) := by
  have hsz : ¬limit * 1024 * 1024 < file.content.length := by omega
  simp [extract_text, directPhase, afterDirect, extract_text_from_pdf, ocrNew,
    hpdf, hcfg, hd, hscan, htess, htrim, hsz, hocr]

/-- C6 witness: the amended scenario at a concrete input. -/
theorem C6_ocr_run_failure_absorbed_witness :
    extract_text envOcrRunFail fileScan =
      (.ok { text := "", pages := estimate_pages envOcrRunFail fileScan.content,
             metadata := (PdfMetadata.new fileScan.size).with_ocr,
             processing_time_ms := 0 }, true) :=
  C6_ocr_run_failure_absorbed envOcrRunFail fileScan "" 10
    "No images could be extracted from the PDF"
    (by decide) rfl (by decide) rfl (by decide) (by decide) rfl rfl

/-- C1 counterexample: on the hard-failure path the OCR engine supplies
the returned text, yet the successful result reports ocr_used = false. -/
theorem C1_counterexample :
    envHardFail.directResult = .error "pdf-extract hard failure" ∧
    envHardFail.performOcrResult = .ok longLetters ∧
    extract_text envHardFail fileScan =
      (.ok { text := longLetters, pages := 1,
             metadata := { title := none, author := none, creation_date := none,
                           modification_date := none, file_size_bytes := 6,
                           ocr_used := false },
             processing_time_ms := 0 }, true) :=
  ⟨rfl, rfl, by decide⟩

/-- C1 (amended): for every successful call, ocr_used is true exactly when
the returned text was delivered by the OCR service on the empty path,
that is, when the direct phase produced text that trims to empty and the
OCR service call succeeded with the returned text; on the enhancement and
hard-failure paths ocr_used stays false even when the text came from OCR. -/
theorem C1_ocr_used_iff_empty_path (env : Env) (file : ProcessedFile)
    (r : ExtractionResult)
    (h : (extract_text env file).fst = .ok r) :
    r.metadata.ocr_used = true ↔
      ∃ t, directPhase env file.content = .ok t ∧ (rustTrim t) = "" ∧
        extract_text_from_pdf env file.content = .ok r.text := by
  unfold extract_text at h
  by_cases hpdf : file.is_pdf = false
  · rw [if_pos hpdf] at h
    simp at h
  · rw [if_neg hpdf] at h
    cases hcfg : env.configMaxSizeMb with
    | error e => rw [hcfg] at h; simp at h
    | ok limit =>
      rw [hcfg] at h
      simp only [] at h
      by_cases hsz : limit * 1024 * 1024 < file.content.length
      · rw [if_pos hsz] at h; simp at h
      · rw [if_neg hsz] at h
        cases hdp : directPhase env file.content with
        | error err => rw [hdp] at h; simp at h
        | ok t =>
          rw [hdp] at h
          simp only [] at h
          unfold afterDirect at h
          by_cases htr : rustTrim t = ""
          · rw [if_pos htr] at h
            cases hnew : ocrNew env with
            | error err => rw [hnew] at h; simp at h
            | ok u =>
              rw [hnew] at h
              simp only [] at h
              cases hocr : extract_text_from_pdf env file.content with
              | ok sOcr =>
                rw [hocr] at h
                simp only [Except.ok.injEq] at h
                subst h
                constructor
                · intro _
                  exact ⟨t, rfl, htr, rfl⟩
                · intro _
                  rfl
              | error e2 =>
                rw [hocr] at h
                simp only [] at h
                rcases extract_text_from_pdf_error_cases env file.content e2 hocr
                  with he | he <;> subst he
                · split at h
                  · simp only [Except.ok.injEq] at h
                    subst h
                    constructor
                    · intro habs
                      simp [PdfMetadata.new, PdfMetadata.with_title,
                        PdfMetadata.with_author] at habs
                    · rintro ⟨t2, ht2, htr2, hocr2⟩
                      simp at hocr2
                  · rename_i hcond
                    exact absurd (by decide) hcond
                · split at h
                  · rename_i hcond
                    exact absurd hcond (by decide)
                  · split at h
                    · simp at h
                    · rename_i hcond
                      exact absurd (by decide) hcond
          · rw [if_neg htr] at h
            have hused : r.metadata.ocr_used = false := by
              by_cases huse : rlen (rustTrim t) < 100 ∨
                ((rustTrim t).data.filter env.isAlphabetic).length < 50
              · rw [if_pos huse] at h
                cases hnew : ocrNew env with
                | error err => rw [hnew] at h; simp at h
                | ok u =>
                  rw [hnew] at h
                  simp only [] at h
                  cases hocr : extract_text_from_pdf env file.content with
                  | ok sOcr =>
                    rw [hocr] at h
                    simp only [Except.ok.injEq] at h
                    subst h
                    rfl
                  | error e2 =>
                    rw [hocr] at h
                    simp only [Except.ok.injEq] at h
                    subst h
                    rfl
              · rw [if_neg huse] at h
                simp only [Except.ok.injEq] at h
                subst h
                rfl
            rw [hused]
            simp only [Bool.false_eq_true, false_iff]
            rintro ⟨t2, ht2, htr2, hocr2⟩
            obtain rfl := (Except.ok.inj ht2)
            exact htr htr2

/-- C1 witness: the amended equivalence instantiated on the empty path at
a concrete input, where ocr_used is true. -/
theorem C1_ocr_used_iff_empty_path_witness :
    ({ text := "hello", pages := 1, metadata := (PdfMetadata.new 6).with_ocr,
       processing_time_ms := 0 } : ExtractionResult).metadata.ocr_used = true :=
  (C1_ocr_used_iff_empty_path envBase fileScan _ (by decide)).mpr
    ⟨"", by decide, by decide, by decide⟩


/-- OcrService::new fails only with the fixed Tesseract-missing message. -/
lemma ocrNew_error_cases (env : Env) (e : AppError) (h : ocrNew env = .error e) :
    e = .OcrError "Tesseract OCR not available on this system" := by
  unfold ocrNew at h
  by_cases ht : env.tesseractAvailable = true
  · rw [if_pos ht] at h
    simp at h
  · rw [if_neg ht] at h
    exact (Except.error.inj h).symm

/-- The direct phase only fails with an OcrError or a ProcessingError. -/
lemma directPhase_error_shape (env : Env) (c : List Nat) (e : AppError)
    (h : directPhase env c = .error e) :
    (∃ m, e = .OcrError m) ∨ (∃ m, e = .ProcessingError m) := by
  unfold directPhase at h
  cases hd : env.directResult with
  | ok t => rw [hd] at h; simp at h
  | error msg =>
    rw [hd] at h
    cases hn : ocrNew env with
    | error err =>
      rw [hn] at h
      simp only [] at h
      obtain rfl := (Except.error.inj h)
      exact Or.inl ⟨_, ocrNew_error_cases env _ hn⟩
    | ok u =>
      rw [hn] at h
      simp only [] at h
      cases ho : extract_text_from_pdf env c with
      | ok t2 => rw [ho] at h; simp at h
      | error e2 =>
        rw [ho] at h
        simp only [] at h
        exact Or.inr ⟨_, (Except.error.inj h).symm⟩

/-- The post-direct stage only fails with an OcrError or a ProcessingError. -/
lemma afterDirect_error_shape (env : Env) (file : ProcessedFile) (t : String)
    (e : AppError) (h : (afterDirect env file t).fst = .error e) :
    (∃ m, e = .OcrError m) ∨ (∃ m, e = .ProcessingError m) := by
  unfold afterDirect at h
  by_cases htr : rustTrim t = ""
  · rw [if_pos htr] at h
    cases hn : ocrNew env with
    | error err =>
      rw [hn] at h
      simp only [] at h
      obtain rfl := (Except.error.inj h)
      exact Or.inl ⟨_, ocrNew_error_cases env _ hn⟩
    | ok u =>
      rw [hn] at h
      simp only [] at h
      cases ho : extract_text_from_pdf env file.content with
      | ok s2 => rw [ho] at h; simp at h
      | error e2 =>
        rw [ho] at h
        simp only [] at h
        split at h
        · simp at h
        · split at h
          · simp only [] at h
            obtain rfl := (Except.error.inj h)
            exact Or.inr ⟨_, rfl⟩
          · simp only [] at h
            obtain rfl := (Except.error.inj h)
            exact Or.inr ⟨_, rfl⟩
  · rw [if_neg htr] at h
    simp only [] at h
    by_cases huse : rlen (rustTrim t) < 100 ∨
        ((rustTrim t).data.filter env.isAlphabetic).length < 50
    · rw [if_pos huse] at h
      cases hn : ocrNew env with
      | error err =>
        rw [hn] at h
        simp only [] at h
        obtain rfl := (Except.error.inj h)
        exact Or.inl ⟨_, ocrNew_error_cases env _ hn⟩
      | ok u =>
        rw [hn] at h
        simp at h
    · rw [if_neg huse] at h
      simp at h

/-- With a PDF-looking file, the call never fails with InvalidFile. -/
lemma extract_text_no_invalid_of_pdf (env : Env) (file : ProcessedFile)
    (hpdf : ¬file.is_pdf = false) (m : String) :
    (extract_text env file).fst ≠ .error (.InvalidFile m) := by
  intro h
  unfold extract_text at h
  rw [if_neg hpdf] at h
  cases hcfg : env.configMaxSizeMb with
  | error e => rw [hcfg] at h; simp at h
  | ok limit =>
    rw [hcfg] at h
    simp only [] at h
    by_cases hsz : limit * 1024 * 1024 < file.content.length
    · rw [if_pos hsz] at h; simp at h
    · rw [if_neg hsz] at h
      cases hdp : directPhase env file.content with
      | error err =>
        rw [hdp] at h
        simp only [] at h
        obtain rfl := (Except.error.inj h)
        rcases directPhase_error_shape env file.content _ hdp with ⟨m2, hm⟩ | ⟨m2, hm⟩ <;>
          simp at hm
      | ok t =>
        rw [hdp] at h
        simp only [] at h
        rcases afterDirect_error_shape env file t _ h with ⟨m2, hm⟩ | ⟨m2, hm⟩ <;>
          simp at hm

/-- C8 (amended): the call fails with InvalidFile exactly when is_pdf is
false, where is_pdf consults only the declared MIME type when one is
present, and falls back to the filename extension or the %PDF signature
only when no MIME type is declared. -/
theorem C8_invalid_iff_not_pdf (env : Env) (file : ProcessedFile) :
    (extract_text env file).fst = .error (.InvalidFile "File is not a valid PDF") ↔
      file.is_pdf = false := by
  constructor
  · intro h
    by_contra hpdf
    exact extract_text_no_invalid_of_pdf env file hpdf _ h
  · intro hnp
    unfold extract_text
    rw [if_pos hnp]

/-- C8 counterexample: a file whose name ends in .pdf and whose content
starts with %PDF is still rejected as InvalidFile when a non-PDF MIME type
is declared, although two of the three checks of the claim match. -/
theorem C8_counterexample :
    fileMime.mime_type = some "text/plain" ∧
    (".pdf".data.isSuffixOf (fileMime.name.data.map Char.toLower)) = true ∧
    ("%PDF".data.map Char.toNat).isPrefixOf fileMime.content = true ∧
    (extract_text envBase fileMime).fst =
      .error (.InvalidFile "File is not a valid PDF") :=
  ⟨rfl, by decide, by decide, by decide⟩

/-- C8 witness: the amended equivalence at a concrete non-PDF input. -/
theorem C8_invalid_iff_not_pdf_witness :
    (extract_text envBase fileMime).fst =
      .error (.InvalidFile "File is not a valid PDF") :=
  (C8_invalid_iff_not_pdf envBase fileMime).mpr (by decide)

/-- Every successful result carries the page count of estimate_pages. -/
lemma afterDirect_ok_pages (env : Env) (file : ProcessedFile) (t : String)
    (r : ExtractionResult) (h : (afterDirect env file t).fst = .ok r) :
    r.pages = estimate_pages env file.content := by
  unfold afterDirect at h
  by_cases htr : rustTrim t = ""
  · rw [if_pos htr] at h
    cases hn : ocrNew env with
    | error err => rw [hn] at h; simp at h
    | ok u =>
      rw [hn] at h
      simp only [] at h
      cases ho : extract_text_from_pdf env file.content with
      | ok s2 =>
        rw [ho] at h
        simp only [Except.ok.injEq] at h
        subst h
        rfl
      | error e2 =>
        rw [ho] at h
        simp only [] at h
        split at h
        · simp only [Except.ok.injEq] at h
          subst h
          rfl
        · split at h
          · simp at h
          · simp at h
  · rw [if_neg htr] at h
    simp only [] at h
    by_cases huse : rlen (rustTrim t) < 100 ∨
        ((rustTrim t).data.filter env.isAlphabetic).length < 50
    · rw [if_pos huse] at h
      cases hn : ocrNew env with
      | error err => rw [hn] at h; simp at h
      | ok u =>
        rw [hn] at h
        simp only [Except.ok.injEq] at h
        subst h
        rfl
    · rw [if_neg huse] at h
      simp only [Except.ok.injEq] at h
      subst h
      rfl

/-- Successful calls return exactly the estimate_pages page count. -/
lemma extract_text_ok_pages (env : Env) (file : ProcessedFile)
    (r : ExtractionResult) (h : (extract_text env file).fst = .ok r) :
    r.pages = estimate_pages env file.content := by
  unfold extract_text at h
  by_cases hpdf : file.is_pdf = false
  · rw [if_pos hpdf] at h; simp at h
  · rw [if_neg hpdf] at h
    cases hcfg : env.configMaxSizeMb with
    | error e => rw [hcfg] at h; simp at h
    | ok limit =>
      rw [hcfg] at h
      simp only [] at h
      by_cases hsz : limit * 1024 * 1024 < file.content.length
      · rw [if_pos hsz] at h; simp at h
      · rw [if_neg hsz] at h
        cases hdp : directPhase env file.content with
        | error err => rw [hdp] at h; simp at h
        | ok t =>
          rw [hdp] at h
          simp only [] at h
          exact afterDirect_ok_pages env file t r h

/-- C9 (amended): a successful call returns exactly the estimate_pages
count: at least 1 when the structural parse failed (size-based fallback),
but equal to the parsed page-tree size when the parse succeeded, with no
lower bound imposed there. -/
theorem C9_pages_of_success (env : Env) (file : ProcessedFile)
    (r : ExtractionResult) (h : (extract_text env file).fst = .ok r) :
    r.pages = estimate_pages env file.content ∧
    (env.loadMemPages = none → 1 ≤ r.pages) ∧
    (∀ n, env.loadMemPages = some n → r.pages = n) := by
  have hp := extract_text_ok_pages env file r h
  refine ⟨hp, ?_, ?_⟩
  · intro hnone
    rw [hp]
    unfold estimate_pages
    rw [hnone]
    exact Nat.le_max_left 1 _
  · intro n hsome
    rw [hp]
    unfold estimate_pages
    rw [hsome]

/-- C9 counterexample: when lopdf parses the document to an empty page
tree, the successful result reports pages = 0, violating pages at least 1. -/
theorem C9_counterexample :
    envZeroPages.loadMemPages = some 0 ∧
    ((extract_text envZeroPages fileText).fst.toOption.map ExtractionResult.pages) =
      some 0 :=
  ⟨rfl, by decide⟩

/-- C9 witness: the amended statement at a concrete successful call. -/
theorem C9_pages_of_success_witness :
    ({ text := "", pages := 1,
       metadata := ((PdfMetadata.new fileText.size).with_title none).with_author none,
       processing_time_ms := 0 } : ExtractionResult).pages =
        estimate_pages envBase fileText.content ∧
    (envBase.loadMemPages = none → 1 ≤
      ({ text := "", pages := 1,
         metadata := ((PdfMetadata.new fileText.size).with_title none).with_author none,
         processing_time_ms := 0 } : ExtractionResult).pages) ∧
    (∀ n, envBase.loadMemPages = some n →
      ({ text := "", pages := 1,
         metadata := ((PdfMetadata.new fileText.size).with_title none).with_author none,
         processing_time_ms := 0 } : ExtractionResult).pages = n) :=
  C9_pages_of_success envBase fileText _ (by decide)


/-- from_u32 inverts toNat. -/
lemma from_u32_toNat (c : Char) : from_u32 c.toNat = some c := by
  unfold from_u32
  rw [if_pos (show Nat.isValidChar c.toNat from c.valid), Char.ofNat_toNat]

/-- Char.ofNat at a valid scalar has that scalar as toNat. -/
lemma charOfNat_toNat (u : Nat) (h : Nat.isValidChar u) : (Char.ofNat u).toNat = u := by
  simp [Char.ofNat, h, Char.ofNatAux, Char.toNat, UInt32.toNat, UInt32.ofNatCore]

/-- The big-endian decoder agrees with the unit-wise view. -/
lemma decode_be_eq : ∀ bytes, decode_utf16_be bytes = specUnitsDecode (specUnitsBE bytes)
  | [] => rfl
  | [b] => rfl
  | b0 :: b1 :: rest => by
    simp only [decode_utf16_be, specUnitsBE, specUnitsDecode, List.filterMap_cons]
    cases hf : from_u32 (b0 * 256 + b1) with
    | none => simpa [specUnitsDecode] using decode_be_eq rest
    | some c =>
      by_cases hc : c = Char.ofNat 0
      · simpa [hc, specUnitsDecode] using decode_be_eq rest
      · simpa [hc, specUnitsDecode] using decode_be_eq rest

/-- The little-endian decoder agrees with the unit-wise view. -/
lemma decode_le_eq : ∀ bytes, decode_utf16_le bytes = specUnitsDecode (specUnitsLE bytes)
  | [] => rfl
  | [b] => rfl
  | b0 :: b1 :: rest => by
    simp only [decode_utf16_le, specUnitsLE, specUnitsDecode, List.filterMap_cons]
    cases hf : from_u32 (b1 * 256 + b0) with
    | none => simpa [specUnitsDecode] using decode_le_eq rest
    | some c =>
      by_cases hc : c = Char.ofNat 0
      · simpa [hc, specUnitsDecode] using decode_le_eq rest
      · simpa [hc, specUnitsDecode] using decode_le_eq rest

/-- Characters kept by from_u32 from a sub-65536 unit, with nulls skipped,
are non-null BMP characters. -/
lemma from_u32_kept (u : Nat) (hu : u < 65536) (c : Char)
    (hf : from_u32 u = some c) (hnz : ¬c = Char.ofNat 0) :
    0 < c.toNat ∧ c.toNat < 65536 := by
  unfold from_u32 at hf
  by_cases hv : Nat.isValidChar u
  · rw [if_pos hv] at hf
    obtain rfl := Option.some.inj hf
    have ht := charOfNat_toNat u hv
    have hu0 : u ≠ 0 := by
      intro h0
      exact hnz (by rw [h0])
    rw [ht]
    omega
  · rw [if_neg hv] at hf
    cases hf

/-- Every character produced by the big-endian decoder from real bytes is
a non-null BMP character. -/
lemma decode_be_bmp : ∀ bytes, (∀ b ∈ bytes, b < 256) →
    ∀ c ∈ decode_utf16_be bytes, 0 < c.toNat ∧ c.toNat < 65536
  | [] => by simp [decode_utf16_be]
  | [b] => by simp [decode_utf16_be]
  | b0 :: b1 :: rest => by
    intro hb c hc
    have hrest := decode_be_bmp rest (fun b hbm => hb b (by simp [hbm]))
    have h0 : b0 < 256 := hb b0 (by simp)
    have h1 : b1 < 256 := hb b1 (by simp)
    simp only [decode_utf16_be] at hc
    cases hf : from_u32 (b0 * 256 + b1) with
    | none =>
      rw [hf] at hc
      exact hrest c hc
    | some c2 =>
      rw [hf] at hc
      simp only [] at hc
      by_cases hz : c2 = Char.ofNat 0
      · rw [if_pos hz] at hc
        exact hrest c hc
      · rw [if_neg hz] at hc
        rcases List.mem_cons.mp hc with rfl | hmem
        · exact from_u32_kept _ (by omega) _ hf hz
        · exact hrest c hmem

/-- Every character produced by the little-endian decoder from real bytes
is a non-null BMP character. -/
lemma decode_le_bmp : ∀ bytes, (∀ b ∈ bytes, b < 256) →
    ∀ c ∈ decode_utf16_le bytes, 0 < c.toNat ∧ c.toNat < 65536
  | [] => by simp [decode_utf16_le]
  | [b] => by simp [decode_utf16_le]
  | b0 :: b1 :: rest => by
    intro hb c hc
    have hrest := decode_le_bmp rest (fun b hbm => hb b (by simp [hbm]))
    have h0 : b0 < 256 := hb b0 (by simp)
    have h1 : b1 < 256 := hb b1 (by simp)
    simp only [decode_utf16_le] at hc
    cases hf : from_u32 (b1 * 256 + b0) with
    | none =>
      rw [hf] at hc
      exact hrest c hc
    | some c2 =>
      rw [hf] at hc
      simp only [] at hc
      by_cases hz : c2 = Char.ofNat 0
      · rw [if_pos hz] at hc
        exact hrest c hc
      · rw [if_neg hz] at hc
        rcases List.mem_cons.mp hc with rfl | hmem
        · exact from_u32_kept _ (by omega) _ hf hz
        · exact hrest c hmem

/-- C10: both UTF-16 decoders are exactly the unit-wise decoding of the
two-byte big/little-endian unit view (so a trailing odd byte is ignored
and null or invalid units are silently dropped), and every character they
produce from real bytes is a non-null Basic-Multilingual-Plane character,
so supplementary-plane characters are never reconstructed. -/
theorem C10_utf16_decoders_unitwise (bytes : List Nat)
    (hb : ∀ b ∈ bytes, b < 256) :
    decode_utf16_be bytes = specUnitsDecode (specUnitsBE bytes) ∧
    decode_utf16_le bytes = specUnitsDecode (specUnitsLE bytes) ∧
    (∀ c ∈ decode_utf16_be bytes, 0 < c.toNat ∧ c.toNat < 65536) ∧
    (∀ c ∈ decode_utf16_le bytes, 0 < c.toNat ∧ c.toNat < 65536) :=
  ⟨decode_be_eq bytes, decode_le_eq bytes,
   decode_be_bmp bytes hb, decode_le_bmp bytes hb⟩

/-- C10 witness: the unit-wise agreement on a concrete byte string holding
one character, one surrogate unit and one trailing odd byte. -/
theorem C10_utf16_decoders_unitwise_witness :
    decode_utf16_be [0, 65, 216, 0, 7] =
      specUnitsDecode (specUnitsBE [0, 65, 216, 0, 7]) :=
  (C10_utf16_decoders_unitwise [0, 65, 216, 0, 7] (by decide)).1


/-- Every character code is below 0x110000. -/
lemma char_toNat_lt (c : Char) : c.toNat < 0x110000 := by
  rcases (show Nat.isValidChar c.toNat from c.valid) with h | h <;> omega

/-- Every byte of the UTF-8 encoding is below 0xF5. -/
lemma utf8EncodeChar_lt (c : Char) : ∀ b ∈ utf8EncodeChar c, b < 0xF5 := by
  have hv := char_toNat_lt c
  intro b hb
  unfold utf8EncodeChar at hb
  simp only [] at hb
  split_ifs at hb with h1 h2 h3
  · simp at hb
    omega
  · simp at hb
    rcases hb with rfl | rfl <;> omega
  · simp at hb
    rcases hb with rfl | rfl | rfl <;> omega
  · simp at hb
    rcases hb with rfl | rfl | rfl | rfl <;> omega

/-- The UTF-8 encoding of a non-null character has no zero byte. -/
lemma utf8EncodeChar_pos (c : Char) (h : c.toNat ≠ 0) :
    ∀ b ∈ utf8EncodeChar c, 0 < b := by
  intro b hb
  unfold utf8EncodeChar at hb
  simp only [] at hb
  split_ifs at hb with h1 h2 h3
  · simp at hb
    omega
  · simp at hb
    rcases hb with rfl | rfl <;> omega
  · simp at hb
    rcases hb with rfl | rfl | rfl <;> omega
  · simp at hb
    rcases hb with rfl | rfl | rfl | rfl <;> omega

/-- One unfolding step of the lossy decoder on a list with at least two
bytes, stated with a general tail. -/
lemma decode_cons2 (b b1 : Nat) (bs : List Nat) :
    utf8DecodeLossy (b :: b1 :: bs) =
      if b < 128 then Char.ofNat b :: utf8DecodeLossy (b1 :: bs)
      else if b < 194 then replChar :: utf8DecodeLossy (b1 :: bs)
      else if b < 224 then
        (if isCont b1 then Char.ofNat ((b - 192) * 64 + (b1 - 128)) :: utf8DecodeLossy bs
         else replChar :: utf8DecodeLossy (b1 :: bs))
      else if b < 240 then
        (if cont3ok b b1 then
          (match bs with
           | [] => [replChar]
           | b2 :: bs2 =>
             if isCont b2 then
               Char.ofNat ((b - 224) * 4096 + (b1 - 128) * 64 + (b2 - 128)) ::
                 utf8DecodeLossy bs2
             else replChar :: utf8DecodeLossy (b2 :: bs2))
         else replChar :: utf8DecodeLossy (b1 :: bs))
      else if b < 245 then
        (if cont4ok b b1 then
          (match bs with
           | [] => [replChar]
           | b2 :: bs2 =>
             if isCont b2 then
               (match bs2 with
                | [] => [replChar]
                | b3 :: bs3 =>
                  if isCont b3 then
                    Char.ofNat ((b - 240) * 262144 + (b1 - 128) * 4096 +
                        (b2 - 128) * 64 + (b3 - 128)) :: utf8DecodeLossy bs3
                  else replChar :: utf8DecodeLossy (b3 :: bs3))
             else replChar :: utf8DecodeLossy (b2 :: bs2))
         else replChar :: utf8DecodeLossy (b1 :: bs))
      else replChar :: utf8DecodeLossy (b1 :: bs) := by
  cases bs with
  | nil => rw [utf8DecodeLossy.eq_3]
  | cons b2 bs2 =>
    cases bs2 with
    | nil => rw [utf8DecodeLossy.eq_4]
    | cons b3 bs3 => rw [utf8DecodeLossy.eq_5]

/-- One unfolding step of the lossy decoder on at least three bytes, with
the three-byte arm stated match-free. -/
lemma decode_cons3 (b b1 b2 : Nat) (bs : List Nat) :
    utf8DecodeLossy (b :: b1 :: b2 :: bs) =
      if b < 128 then Char.ofNat b :: utf8DecodeLossy (b1 :: b2 :: bs)
      else if b < 194 then replChar :: utf8DecodeLossy (b1 :: b2 :: bs)
      else if b < 224 then
        (if isCont b1 then
          Char.ofNat ((b - 192) * 64 + (b1 - 128)) :: utf8DecodeLossy (b2 :: bs)
         else replChar :: utf8DecodeLossy (b1 :: b2 :: bs))
      else if b < 240 then
        (if cont3ok b b1 then
          (if isCont b2 then
            Char.ofNat ((b - 224) * 4096 + (b1 - 128) * 64 + (b2 - 128)) ::
              utf8DecodeLossy bs
           else replChar :: utf8DecodeLossy (b2 :: bs))
         else replChar :: utf8DecodeLossy (b1 :: b2 :: bs))
      else if b < 245 then
        (if cont4ok b b1 then
          (if isCont b2 then
            (match bs with
             | [] => [replChar]
             | b3 :: bs3 =>
               if isCont b3 then
                 Char.ofNat ((b - 240) * 262144 + (b1 - 128) * 4096 +
                     (b2 - 128) * 64 + (b3 - 128)) :: utf8DecodeLossy bs3
               else replChar :: utf8DecodeLossy (b3 :: bs3))
           else replChar :: utf8DecodeLossy (b2 :: bs))
         else replChar :: utf8DecodeLossy (b1 :: b2 :: bs))
      else replChar :: utf8DecodeLossy (b1 :: b2 :: bs) := by
  cases bs with
  | nil => rw [utf8DecodeLossy.eq_4]
  | cons b3 bs3 => rw [utf8DecodeLossy.eq_5]

/-- One unfolding step of the lossy decoder on at least four bytes, all
arms stated match-free. -/
lemma decode_cons4 (b b1 b2 b3 : Nat) (bs : List Nat) :
    utf8DecodeLossy (b :: b1 :: b2 :: b3 :: bs) =
      if b < 128 then Char.ofNat b :: utf8DecodeLossy (b1 :: b2 :: b3 :: bs)
      else if b < 194 then replChar :: utf8DecodeLossy (b1 :: b2 :: b3 :: bs)
      else if b < 224 then
        (if isCont b1 then
          Char.ofNat ((b - 192) * 64 + (b1 - 128)) :: utf8DecodeLossy (b2 :: b3 :: bs)
         else replChar :: utf8DecodeLossy (b1 :: b2 :: b3 :: bs))
      else if b < 240 then
        (if cont3ok b b1 then
          (if isCont b2 then
            Char.ofNat ((b - 224) * 4096 + (b1 - 128) * 64 + (b2 - 128)) ::
              utf8DecodeLossy (b3 :: bs)
           else replChar :: utf8DecodeLossy (b2 :: b3 :: bs))
         else replChar :: utf8DecodeLossy (b1 :: b2 :: b3 :: bs))
      else if b < 245 then
        (if cont4ok b b1 then
          (if isCont b2 then
            (if isCont b3 then
              Char.ofNat ((b - 240) * 262144 + (b1 - 128) * 4096 +
                  (b2 - 128) * 64 + (b3 - 128)) :: utf8DecodeLossy bs
             else replChar :: utf8DecodeLossy (b3 :: bs))
           else replChar :: utf8DecodeLossy (b2 :: b3 :: bs))
         else replChar :: utf8DecodeLossy (b1 :: b2 :: b3 :: bs))
      else replChar :: utf8DecodeLossy (b1 :: b2 :: b3 :: bs) := by
  rw [utf8DecodeLossy.eq_5]

/-- The lossy decoder undoes the encoder on one character followed by
anything. -/
lemma utf8_decode_encode_char (c : Char) (rest : List Nat) :
    utf8DecodeLossy (utf8EncodeChar c ++ rest) = c :: utf8DecodeLossy rest := by
  have hval : c.toNat < 0xD800 ∨ (0xDFFF < c.toNat ∧ c.toNat < 0x110000) :=
    (show Nat.isValidChar c.toNat from c.valid)
  unfold utf8EncodeChar
  by_cases h1 : c.toNat < 0x80
  · rw [if_pos h1]
    cases rest with
    | nil =>
      simp only [List.cons_append, List.nil_append]
      rw [utf8DecodeLossy.eq_2, if_pos h1, Char.ofNat_toNat, utf8DecodeLossy.eq_1]
    | cons r rs =>
      simp only [List.cons_append, List.nil_append]
      rw [decode_cons2, if_pos h1, Char.ofNat_toNat]
  · rw [if_neg h1]
    by_cases h2 : c.toNat < 0x800
    · rw [if_pos h2]
      simp only [List.cons_append, List.nil_append]
      rw [decode_cons2,
        if_neg (show ¬192 + c.toNat / 64 < 128 by omega),
        if_neg (show ¬192 + c.toNat / 64 < 194 by omega),
        if_pos (show 192 + c.toNat / 64 < 224 by omega),
        if_pos (show isCont (128 + c.toNat % 64) from ⟨by omega, by omega⟩)]
      rw [show (192 + c.toNat / 64 - 192) * 64 + (128 + c.toNat % 64 - 128) = c.toNat
        by omega, Char.ofNat_toNat]
    · rw [if_neg h2]
      by_cases h3 : c.toNat < 0x10000
      · rw [if_pos h3]
        rcases hval with hA | hA <;>
        · simp only [List.cons_append, List.nil_append]
          rw [decode_cons3,
            if_neg (show ¬224 + c.toNat / 4096 < 128 by omega),
            if_neg (show ¬224 + c.toNat / 4096 < 194 by omega),
            if_neg (show ¬224 + c.toNat / 4096 < 224 by omega),
            if_pos (show 224 + c.toNat / 4096 < 240 by omega),
            if_pos (show cont3ok (224 + c.toNat / 4096) (128 + c.toNat / 64 % 64) from
              ⟨by omega, by omega, fun hE0 => by omega, fun hED => by omega⟩),
            if_pos (show isCont (128 + c.toNat % 64) from ⟨by omega, by omega⟩)]
          rw [show (224 + c.toNat / 4096 - 224) * 4096 +
              (128 + c.toNat / 64 % 64 - 128) * 64 + (128 + c.toNat % 64 - 128) =
            c.toNat by omega, Char.ofNat_toNat]
      · rw [if_neg h3]
        rcases hval with hA | hA
        · omega
        · simp only [List.cons_append, List.nil_append]
          rw [decode_cons4,
            if_neg (show ¬240 + c.toNat / 262144 < 128 by omega),
            if_neg (show ¬240 + c.toNat / 262144 < 194 by omega),
            if_neg (show ¬240 + c.toNat / 262144 < 224 by omega),
            if_neg (show ¬240 + c.toNat / 262144 < 240 by omega),
            if_pos (show 240 + c.toNat / 262144 < 245 by omega),
            if_pos (show cont4ok (240 + c.toNat / 262144) (128 + c.toNat / 4096 % 64) from
              ⟨by omega, by omega, fun hF0 => by omega, fun hF4 => by omega⟩),
            if_pos (show isCont (128 + c.toNat / 64 % 64) from ⟨by omega, by omega⟩),
            if_pos (show isCont (128 + c.toNat % 64) from ⟨by omega, by omega⟩)]
          rw [show (240 + c.toNat / 262144 - 240) * 262144 +
              (128 + c.toNat / 4096 % 64 - 128) * 4096 +
              (128 + c.toNat / 64 % 64 - 128) * 64 + (128 + c.toNat % 64 - 128) =
            c.toNat by omega, Char.ofNat_toNat]

/-- The lossy decoder undoes the encoder on whole strings. -/
lemma utf8_decode_encode : ∀ cs : List Char,
    utf8DecodeLossy (cs.flatMap utf8EncodeChar) = cs
  | [] => rfl
  | c :: cs => by
    simp only [List.flatMap_cons]
    rw [utf8_decode_encode_char c, utf8_decode_encode cs]


/-- A character with nonzero code is not the null character. -/
lemma ne_null_of_toNat_ne_zero (c : Char) (h : c.toNat ≠ 0) : ¬c = Char.ofNat 0 :=
  fun heq => h (by rw [heq]; decide)

/-- The big-endian UTF-16 decoder undoes the two-byte encoding of non-null
BMP characters. -/
lemma decode_be_encode : ∀ cs : List Char,
    (∀ c ∈ cs, c.toNat ≠ 0 ∧ c.toNat < 0x10000) →
    decode_utf16_be ((cs.flatMap utf16Units).flatMap fun u => [u / 256, u % 256]) = cs
  | [] => fun _ => rfl
  | c :: cs => by
    intro h
    have hc := h c (by simp)
    have ih := decode_be_encode cs (fun c2 hm => h c2 (by simp [hm]))
    simp only [List.flatMap_cons]
    rw [utf16Units, if_pos hc.2]
    simp only [List.flatMap_append, List.flatMap_cons, List.flatMap_nil,
      List.nil_append, List.append_nil, List.cons_append]
    simp only [decode_utf16_be]
    rw [show c.toNat / 256 * 256 + c.toNat % 256 = c.toNat by omega, from_u32_toNat]
    simp only [if_neg (ne_null_of_toNat_ne_zero c hc.1)]
    exact congrArg (c :: ·) ih

/-- The little-endian UTF-16 decoder undoes the two-byte encoding of
non-null BMP characters. -/
lemma decode_le_encode : ∀ cs : List Char,
    (∀ c ∈ cs, c.toNat ≠ 0 ∧ c.toNat < 0x10000) →
    decode_utf16_le ((cs.flatMap utf16Units).flatMap fun u => [u % 256, u / 256]) = cs
  | [] => fun _ => rfl
  | c :: cs => by
    intro h
    have hc := h c (by simp)
    have ih := decode_le_encode cs (fun c2 hm => h c2 (by simp [hm]))
    simp only [List.flatMap_cons]
    rw [utf16Units, if_pos hc.2]
    simp only [List.flatMap_append, List.flatMap_cons, List.flatMap_nil,
      List.nil_append, List.append_nil, List.cons_append]
    simp only [decode_utf16_le]
    rw [show c.toNat / 256 * 256 + c.toNat % 256 = c.toNat by omega, from_u32_toNat]
    simp only [if_neg (ne_null_of_toNat_ne_zero c hc.1)]
    exact congrArg (c :: ·) ih

/-- No zero byte occurs in the UTF-8 encoding of a null-free string. -/
lemma utf8Encode_pos (s : String) (h : ∀ c ∈ s.data, c.toNat ≠ 0) :
    ∀ b ∈ utf8Encode s, 0 < b := by
  intro b hb
  unfold utf8Encode at hb
  rcases List.mem_flatMap.mp hb with ⟨c, hcm, hbm⟩
  exact utf8EncodeChar_pos c (h c hcm) b hbm

/-- Every byte of the UTF-8 encoding of a string is below 0xF5. -/
lemma utf8Encode_lt (s : String) : ∀ b ∈ utf8Encode s, b < 0xF5 := by
  intro b hb
  unfold utf8Encode at hb
  rcases List.mem_flatMap.mp hb with ⟨c, hcm, hbm⟩
  exact utf8EncodeChar_lt c b hbm

/-- The UTF-8 encoding never starts with either UTF-16 byte-order mark. -/
lemma utf8Encode_no_bom (s : String) (bom0 bom1 : Nat) (hb : 0xF5 ≤ bom0) :
    [bom0, bom1].isPrefixOf (utf8Encode s) = false := by
  cases hE : utf8Encode s with
  | nil => rfl
  | cons b bs =>
    have hlt : b < 0xF5 := utf8Encode_lt s b (by rw [hE]; simp)
    simp [List.isPrefixOf]
    omega

/-- The UTF-8 encoding of a null-free string never looks like UTF-16. -/
lemma utf8Encode_not_utf16 (s : String) (h : ∀ c ∈ s.data, c.toNat ≠ 0) :
    looks_like_utf16 (utf8Encode s) = false := by
  unfold looks_like_utf16
  by_cases hl : (utf8Encode s).length < 2
  · rw [if_pos hl]
  · rw [if_neg hl]
    have hf : (utf8Encode s).filter (fun b => decide (b = 0)) = [] := by
      rw [List.filter_eq_nil_iff]
      intro b hb
      have := utf8Encode_pos s h b hb
      simp
      omega
    rw [hf]
    simp

/-- C7 (amended): decoding inverts encoding for the inputs the decoders
can represent: the UTF-16BE and UTF-16LE with-BOM round trips return the
original string whenever it has no null characters and no
supplementary-plane characters, and the UTF-8 round trip returns the
original whenever it has no null characters. -/
theorem C7_metadata_decoder_roundtrip (s : String) :
    ((∀ c ∈ s.data, c.toNat ≠ 0 ∧ c.toNat < 0x10000) →
      decode_metadata (encode_utf16_be_bom s) = s.data ∧
      decode_metadata (encode_utf16_le_bom s) = s.data) ∧
    ((∀ c ∈ s.data, c.toNat ≠ 0) →
      decode_metadata (utf8Encode s) = s.data) := by
  constructor
  · intro h
    constructor
    · unfold decode_metadata encode_utf16_be_bom
      rw [if_pos (by simp [List.isPrefixOf] :
        ([0xFE, 0xFF] : List Nat).isPrefixOf
          ([0xFE, 0xFF] ++ (s.data.flatMap utf16Units).flatMap
            fun u => [u / 256, u % 256]) = true)]
      simp only [List.drop_succ_cons, List.drop_zero, List.cons_append,
        List.nil_append]
      exact decode_be_encode s.data h
    · unfold decode_metadata encode_utf16_le_bom
      rw [if_neg (by simp [List.isPrefixOf] :
          ¬([0xFE, 0xFF] : List Nat).isPrefixOf
            ([0xFF, 0xFE] ++ (s.data.flatMap utf16Units).flatMap
              fun u => [u % 256, u / 256]) = true),
        if_pos (by simp [List.isPrefixOf] :
          ([0xFF, 0xFE] : List Nat).isPrefixOf
            ([0xFF, 0xFE] ++ (s.data.flatMap utf16Units).flatMap
              fun u => [u % 256, u / 256]) = true)]
      simp only [List.drop_succ_cons, List.drop_zero, List.cons_append,
        List.nil_append]
      exact decode_le_encode s.data h
  · intro h
    unfold decode_metadata
    rw [if_neg (by rw [utf8Encode_no_bom s 0xFE 0xFF (by omega)]; simp),
      if_neg (by rw [utf8Encode_no_bom s 0xFF 0xFE (by omega)]; simp),
      if_neg (by rw [utf8Encode_not_utf16 s h]; simp)]
    exact utf8_decode_encode s.data

/-- C7 counterexample: the round trip fails as universally stated — a null
character is dropped by the UTF-16 decoders, a supplementary-plane
character encoded as a surrogate pair is not reconstructed, and a
null-heavy string is mis-dispatched to the UTF-16 decoder on the UTF-8
path. -/
theorem C7_counterexample :
    decode_metadata (encode_utf16_be_bom nullString) ≠ nullString.data ∧
    decode_metadata (encode_utf16_le_bom nullString) ≠ nullString.data ∧
    decode_metadata (encode_utf16_be_bom suppString) ≠ suppString.data ∧
    decode_metadata (utf8Encode nullPadded) ≠ nullPadded.data :=
  ⟨by decide, by decide, by decide, by decide⟩

/-- C7 witness: the amended round trips at a concrete two-letter string. -/
theorem C7_metadata_decoder_roundtrip_witness :
    decode_metadata (encode_utf16_be_bom "AB") = "AB".data ∧
    decode_metadata (encode_utf16_le_bom "AB") = "AB".data ∧
    decode_metadata (utf8Encode "AB") = "AB".data :=
  ⟨((C7_metadata_decoder_roundtrip "AB").1 (by decide)).1,
   ((C7_metadata_decoder_roundtrip "AB").1 (by decide)).2,
   (C7_metadata_decoder_roundtrip "AB").2 (by decide)⟩

end Elicit
